import Mathlib

/-!
Verification of the triage-to-provider recommendation core of the
`innovatec2_streamlit` repository, as a shallow embedding in Lean 4.

Python strings are modelled as `String`/`List Char`; pandas DataFrames as
lists of structures (one structure field per consumed column); pandas/python
floats as `ℚ`; `None`/`NaN`-able cells as `Option` or an explicit `PyVal`
type.  The Unicode normalization tables used by `unicodedata` (NFD/NFKD
decomposition and the combining-mark character class) are not reproduced
in full: they enter the model as an explicit `UnicodeModel` parameter, and
theorems that depend on their behaviour state the (true) facts they need
about it as hypotheses (e.g. that NFD/NFKD are the identity on ASCII
strings).  The sentence-embedding model and the RapidFuzz scorer are
external collaborators; they enter the model as abstract score functions.
-/

/-! ### Python string primitives -/

/-- The six ASCII characters matched by Python `str.strip()` / regex `\s`
on ASCII text: space, tab, newline, carriage return, vertical tab, form feed. -/
def isPySpace (c : Char) : Bool :=
  c == ' ' || c == '\t' || c == '\n' || c == '\r' || c == '\x0b' || c == '\x0c'

/-- Python `str.lower()` on one character, modelled for the Basic Latin and
Latin-1 ranges (A-Z, and À-Þ except ×, map 32 code points up; everything
else is fixed).  This agrees with Python on every character the claims
exercise. -/
def pyLowerChar (c : Char) : Char :=
  if (65 ≤ c.toNat ∧ c.toNat ≤ 90) ∨
     (192 ≤ c.toNat ∧ c.toNat ≤ 222 ∧ c.toNat ≠ 215) then
    Char.ofNat (c.toNat + 32)
  else c

/-- Python `str.upper()` on one character (a-z, à-þ except ÷), used by
`str.title()`. -/
def pyUpperChar (c : Char) : Char :=
  if (97 ≤ c.toNat ∧ c.toNat ≤ 122) ∨
     (224 ≤ c.toNat ∧ c.toNat ≤ 254 ∧ c.toNat ≠ 247) then
    Char.ofNat (c.toNat - 32)
  else c

/-- Alphabetic test for `str.title()`, Basic Latin + Latin-1 letters. -/
def isPyAlpha (c : Char) : Bool :=
  (97 ≤ c.toNat ∧ c.toNat ≤ 122) ∨ (65 ≤ c.toNat ∧ c.toNat ≤ 90) ∨
  (192 ≤ c.toNat ∧ c.toNat ≤ 255 ∧ c.toNat ≠ 215 ∧ c.toNat ≠ 247)

/-- Python `str.lower()`. -/
def pyLower (s : String) : String := ⟨s.data.map pyLowerChar⟩

/-- Python `str.strip()` on a character list: drop whitespace from both ends. -/
def pyStripList (l : List Char) : List Char :=
  ((l.dropWhile isPySpace).reverse.dropWhile isPySpace).reverse

/-- Python `str.strip()`. -/
def pyStrip (s : String) : String := ⟨pyStripList s.data⟩

/-- Python `str.title()`: a letter after a non-letter (or at the start) is
uppercased, any other letter is lowercased, non-letters are fixed.  The
boolean argument tracks whether the previous character was a letter. -/
def pyTitleAux : Bool → List Char → List Char
  | _, [] => []
  | prevAlpha, c :: cs =>
    (if isPyAlpha c then (if prevAlpha then pyLowerChar c else pyUpperChar c) else c)
      :: pyTitleAux (isPyAlpha c) cs

/-- Python `str.title()`. -/
def pyTitle (s : String) : String := ⟨pyTitleAux false s.data⟩

/-- Substring test (`needle in hay` for Python strings): `sub` occurs as a
contiguous run of `hay`, checked position by position. -/
def containsSubAux (sub : List Char) : List Char → Bool
  | [] => sub.isEmpty
  | c :: cs => sub.isPrefixOf (c :: cs) || containsSubAux sub cs

/-- Python `sub in hay` / `pandas.Series.str.contains(sub)` for plain text. -/
def containsSub (hay sub : String) : Bool := containsSubAux sub.data hay.data

/-- `dict.fromkeys` / `drop_duplicates(subset=key)`: keep the first occurrence
of every key, preserving order.  `seen` accumulates the keys already kept. -/
def dedupByKeyAux {α κ : Type} [DecidableEq κ] (key : α → κ) (seen : List κ) :
    List α → List α
  | [] => []
  | a :: rest =>
    if key a ∈ seen then dedupByKeyAux key seen rest
    else a :: dedupByKeyAux key (key a :: seen) rest

/-- Keep the first occurrence of each key. -/
def dedupByKey {α κ : Type} [DecidableEq κ] (key : α → κ) (l : List α) : List α :=
  dedupByKeyAux key [] l

/-- `list(dict.fromkeys(xs))`: order-preserving deduplication. -/
def dedupFirst (l : List String) : List String := dedupByKey id l

/-! ### Values that may be NaN/None (pandas cells) -/

/-- A Python value as seen by `pd.isna` / `str()`: a string, an int, `None`,
or a float NaN.  Only the constructors the claims exercise are modelled. -/
inductive PyVal where
  | pstr (s : String)
  | pint (n : Int)
  | pnone
  | pnan
deriving DecidableEq, Repr

/-- `pandas.isna` on a scalar. -/
def pd_isna : PyVal → Bool
  | .pnone => true
  | .pnan => true
  | _ => false

/-- Python `str()` applied to a `PyVal`. -/
def pyStr : PyVal → String
  | .pstr s => s
  | .pint n => toString n
  | .pnone => "None"
  | .pnan => "nan"

/-! ### The Unicode collaborator -/

/-- The part of `unicodedata` the normalizer consumes: NFD and NFKD
decomposition on character sequences and the `Mn` (combining mark) class
test.  Theorems state the facts about real Unicode they rely on (for
instance, that both decompositions are the identity on ASCII) as
hypotheses on this structure. -/
structure UnicodeModel where
  nfd : List Char → List Char
  nfkd : List Char → List Char
  isMn : Char → Bool

/-- The trivial instantiation: identity decompositions, no combining marks.
It agrees with real Unicode on ASCII input and is used by concrete
witnesses. -/
def asciiUnicodeModel : UnicodeModel :=
  { nfd := id, nfkd := id, isMn := fun _ => false }

/-! ### `utils/general_utils.py` — `text_cleaning` -/

/-- Character kept verbatim by the regex `[^a-z0-9\s]` substitution:
a lowercase ASCII letter or an ASCII digit. -/
def isLowerAlnum (c : Char) : Bool :=
  (97 ≤ c.toNat ∧ c.toNat ≤ 122) ∨ (48 ≤ c.toNat ∧ c.toNat ≤ 57)

/-- `re.sub(r"[^a-z0-9\s]", " ", text)`: every character that is neither a
lowercase alphanumeric nor whitespace becomes one space. -/
def subNonAlnumToSpace (l : List Char) : List Char :=
  l.map fun c => if isLowerAlnum c || isPySpace c then c else ' '

/-- `re.sub(r"\s+", " ", text)`: collapse each maximal whitespace run to a
single space.  The boolean tracks whether the previous character was
whitespace (so the run has already emitted its space). -/
def collapseWsAux : Bool → List Char → List Char
  | _, [] => []
  | prev, c :: cs =>
    if isPySpace c then
      if prev then collapseWsAux true cs else ' ' :: collapseWsAux true cs
    else c :: collapseWsAux false cs

/-- `re.sub(r"\s+", " ", text)`. -/
def collapseWs (l : List Char) : List Char := collapseWsAux false l

/-- The last regex stages of `text_cleaning` (lines 41-47): replace each
character outside `[a-z0-9\s]` by a space, collapse whitespace runs, strip. -/
def cleanTail (l : List Char) : List Char :=
  pyStripList (collapseWs (subNonAlnumToSpace l))

/-- `utils/general_utils.py::text_cleaning`, string branch (lines 27-52):
lowercase; NFD then drop combining marks; NFKD then ASCII-encode with
`errors="ignore"` (drop non-ASCII); replace each character outside
`[a-z0-9\s]` by a space; collapse whitespace runs; strip; replace the
remaining spaces by underscores. -/
def text_cleaning_str (u : UnicodeModel) (s : String) : String :=
  let l0 := s.data.map pyLowerChar
  let l1 := (u.nfd l0).filter fun c => !u.isMn c
  let l2 := (u.nfkd l1).filter fun c => c.toNat < 128
  ⟨(cleanTail l2).map fun c => if c == ' ' then '_' else c⟩

/-- `utils/general_utils.py::text_cleaning` (lines 6-52): NaN/None values
are returned as-is; any other value is converted with `str()` and cleaned. -/
def text_cleaning (u : UnicodeModel) (v : PyVal) : PyVal :=
  if pd_isna v then v else .pstr (text_cleaning_str u (pyStr v))

/-- A character that may appear in a cleaned key: `[a-z0-9_]`. -/
def isCleanChar (c : Char) : Bool := isLowerAlnum c || c == '_'

/-! ### `utils/matching_utils/semantic_matching.py` -/

/-- Python `round(x, 3)`: round to three decimal places, ties to even
(banker's rounding), modelled exactly over `ℚ`. -/
def pyRound3 (q : ℚ) : ℚ :=
  let y := q * 1000
  let f : ℤ := ⌊y⌋
  let r := y - f
  (if r < 1 / 2 then (f : ℚ)
   else if 1 / 2 < r then (f : ℚ) + 1
   else if f % 2 = 0 then (f : ℚ) else (f : ℚ) + 1) / 1000

/-- `str.replace("  ", " ")`: replace non-overlapping double-space pairs,
scanning left to right (a single pass, not a full collapse). -/
def replaceTwoSpace : List Char → List Char
  | ' ' :: ' ' :: cs => ' ' :: replaceTwoSpace cs
  | c :: cs => c :: replaceTwoSpace cs
  | [] => []

/-- `semantic_matching.py::normalize_text_for_embedding` (line 65):
`text.replace("_", " ").replace("-", " ").replace("  ", " ").strip().lower()`. -/
def normalize_text_for_embedding (text : String) : String :=
  pyLower (pyStrip
    ⟨replaceTwoSpace (text.data.map fun c => if c == '_' || c == '-' then ' ' else c)⟩)

/-- The stable descending-by-score order used to model Python
`sorted(..., key=lambda x: x[1], reverse=True)` (Python sorts are stable). -/
def scoreDesc (a b : String × ℚ) : Prop := b.2 ≤ a.2

instance : DecidableRel scoreDesc := fun a b => inferInstanceAs (Decidable (b.2 ≤ a.2))

instance : IsTrans (String × ℚ) scoreDesc := by
  constructor
  intro a b c hab hbc
  exact le_trans hbc hab

instance : IsTotal (String × ℚ) scoreDesc := by
  constructor
  intro a b
  exact le_total b.2 a.2

/-- `semantic_matching.py::semantic_match_services` (lines 68-128).  The
sentence-embedding model is external; `sim` abstracts
`util.cos_sim(encode(normalized query), encode(normalized candidate))`.
The pipeline — threshold filter in candidate order, stable descending sort,
`top_k` truncation, `dict.fromkeys` dedup of the names, rounding of the
(un-deduplicated) scores — is the code's. -/
def semantic_match_services (sim : String → String → ℚ) (especialidad : String)
    (servicios_disponibles : List String) (threshold : ℚ) (top_k : ℕ) :
    List String × List ℚ :=
  let q := normalize_text_for_embedding especialidad
  let results := (servicios_disponibles.map fun s =>
      (s, sim q (normalize_text_for_embedding s))).filter fun p => threshold ≤ p.2
  let results := (List.insertionSort scoreDesc results).take top_k
  (dedupFirst (results.map Prod.fst), results.map fun r => pyRound3 r.2)

/-- `rapidfuzz.process.extract(query, choices, scorer, limit)`: score every
choice, return the `limit` best, sorted descending by score (stable in the
input order).  `scorer` abstracts `fuzz.token_sort_ratio` (range 0-100). -/
def process_extract (scorer : String → String → ℚ) (query : String)
    (choices : List String) (limit : ℕ) : List (String × ℚ) :=
  (List.insertionSort scoreDesc (choices.map fun c => (c, scorer query c))).take limit

/-- `semantic_matching.py::fuzzy_match_services` (lines 131-173):
`process.extract` with `limit=top_k*2`, threshold filter on the 0-100 scale,
stable descending sort, `top_k` truncation, name dedup, score rescaling. -/
def fuzzy_match_services (scorer : String → String → ℚ) (especialidad : String)
    (servicios_disponibles : List String) (threshold : ℚ) (top_k : ℕ) :
    List String × List ℚ :=
  let extracted := process_extract scorer especialidad servicios_disponibles (top_k * 2)
  let good := extracted.filter fun m => threshold * 100 ≤ m.2
  let good := (List.insertionSort scoreDesc good).take top_k
  (dedupFirst (good.map Prod.fst), good.map fun m => pyRound3 (m.2 / 100))

/-! ### `utils/matching_utils/triage_matching.py` — correspondence table -/

/-- One deduplicated row of the triage-combinations table consumed by
`build_correspondence_table` (all fields are strings there: the builder
pipeline stringifies every cell). -/
structure SintomasRow where
  categoria : String
  nivel_triage : String
  modalidad : String
  especialidad : String
deriving DecidableEq, Repr

/-- One row of the produced correspondence table. -/
structure CorrRow where
  categoria : String
  nivel_triage : String
  modalidad_requerida : String
  especialidad_requerida : String
  servicios_sugeridos : List String
  scores : List ℚ
  tipo_coincidencia : String
deriving DecidableEq, Repr

/-- The matching configuration: the `method` switch plus the two external
score functions (the sentence-embedding cosine similarity and the RapidFuzz
token-sort ratio). -/
structure MatchCfg where
  method : String
  sim : String → String → ℚ
  scorer : String → String → ℚ

/-- Default `special_categories` of `build_correspondence_table`. -/
def special_categories_default : List String :=
  ["salud_mental", "oftalmologia", "riesgo_biologico", "neurologico_o_cabeza"]

/-- Step 1 of the builder loop (lines 86-112): the triage-level prefilter
over the provider-service column.  T1-T3 keep services containing
"urgencias", T4-T5 those containing "consulta", anything else keeps all;
T1 additionally unions in services containing "cirugia"; the pool is
deduplicated by service id keeping first occurrences (`drop_duplicates`). -/
def triage_prefilter (servicios_col : List String) (nivel : String) : List String :=
  let base :=
    if nivel = "T1" ∨ nivel = "T2" ∨ nivel = "T3" then
      servicios_col.filter fun s => containsSub s "urgencias"
    else if nivel = "T4" ∨ nivel = "T5" then
      servicios_col.filter fun s => containsSub s "consulta"
    else servicios_col
  let base1 :=
    if nivel = "T1" then
      dedupFirst (base ++ servicios_col.filter fun s => containsSub s "cirugia")
    else base
  dedupFirst base1

/-- Tier 1 of the builder loop (`triage_matching.py` lines 121-138): the
category match, run with the configured method; the match-type tag is
`ctg_*_match` when services were found and `sin_match` otherwise. -/
def category_tier (cfg : MatchCfg) (categoria : String) (pool : List String)
    (threshold : ℚ) (top_k : ℕ) : List String × List ℚ × String :=
  if cfg.method = "semantic" then
    let m := semantic_match_services cfg.sim categoria pool threshold top_k
    (m.1, m.2, if m.1 ≠ [] then "ctg_semantic_match" else "sin_match")
  else
    let m := fuzzy_match_services cfg.scorer categoria pool threshold top_k
    (m.1, m.2, if m.1 ≠ [] then "ctg_fuzzy_match" else "sin_match")

/-- Tier 2 of the builder loop (lines 144-161): the specialty match. -/
def specialty_tier (cfg : MatchCfg) (especialidad : String) (pool : List String)
    (threshold : ℚ) (top_k : ℕ) : List String × List ℚ × String :=
  if cfg.method = "semantic" then
    let m := semantic_match_services cfg.sim especialidad pool threshold top_k
    (m.1, m.2, if m.1 ≠ [] then "semantic_match" else "sin_match")
  else
    let m := fuzzy_match_services cfg.scorer especialidad pool threshold top_k
    (m.1, m.2, if m.1 ≠ [] then "fuzzy_match" else "sin_match")

/-- The body of the builder's main loop (`triage_matching.py` lines 77-195)
for one combination row: tier-1 category match (only for special
categories), tier-2 specialty match (only when tier 1 produced nothing and
the stripped specialty is non-empty), tier-3 hardcoded fallback.  In the
source `tipo` is an uninitialized local until some tier assigns it; the
placeholder `""` used here is always overwritten before it can escape,
because empty `servicios` forces the fallback assignment. -/
def build_entry (cfg : MatchCfg) (special_categories : List String)
    (threshold : ℚ) (top_k : ℕ) (servicios_col : List String)
    (row : SintomasRow) : CorrRow :=
  let especialidad := pyStrip row.especialidad
  let pool := triage_prefilter servicios_col row.nivel_triage
  let t1 : List String × List ℚ × String :=
    if row.categoria ∈ special_categories then
      category_tier cfg row.categoria pool threshold top_k
    else ([], [], "")
  let t2 : List String × List ℚ × String :=
    if especialidad ≠ "" ∧ t1.1 = [] then
      specialty_tier cfg especialidad pool threshold top_k
    else t1
  let fin : List String × List ℚ × String :=
    if t2.1 = [] then
      (if row.nivel_triage ∈ ["T1", "T2", "T3"] then ["urgencias_medico_general"]
       else ["consulta_medicina_general"], [1], "fallback")
    else t2
  { categoria := row.categoria, nivel_triage := row.nivel_triage,
    modalidad_requerida := row.modalidad, especialidad_requerida := especialidad,
    servicios_sugeridos := fin.1, scores := fin.2.1, tipo_coincidencia := fin.2.2 }

/-- `triage_matching.py::build_correspondence_table` (lines 15-206):
deduplicate the combinations on the four key columns, run the loop body on
each, and deduplicate the output on the four key columns again.
`servicios_col` is the `servicio_prestador` column of `df_prestadores`. -/
def build_correspondence_table (cfg : MatchCfg) (special_categories : List String)
    (threshold : ℚ) (top_k : ℕ) (df_sintomas : List SintomasRow)
    (servicios_col : List String) : List CorrRow :=
  let dedup := dedupByKey
    (fun r => (r.categoria, r.nivel_triage, r.modalidad, r.especialidad)) df_sintomas
  let entries := dedup.map (build_entry cfg special_categories threshold top_k servicios_col)
  dedupByKey
    (fun r => (r.categoria, r.nivel_triage, r.modalidad_requerida, r.especialidad_requerida))
    entries

/-! ### `utils/matching_utils/recommendation_engine.py` — facade -/

/-- The dictionary returned by `get_recommended_services`. -/
structure RecResult where
  servicios : List String
  scores : List ℚ
  tipo : String
deriving DecidableEq, Repr

/-- `recommendation_engine.py::get_recommended_services` (lines 120-180):
normalize the incoming specialty with `.lower().strip()`, select the first
correspondence row whose (categoria, nivel_triage, especialidad_requerida)
are exactly equal, otherwise fall back to the hardcoded per-level default. -/
def get_recommended_services (categoria nivel_triage especialidad : String)
    (df_correspondencia : List CorrRow) : RecResult :=
  let especialidad_norm := pyStrip (pyLower especialidad)
  match df_correspondencia.find? (fun r =>
      r.categoria == categoria && r.nivel_triage == nivel_triage &&
      r.especialidad_requerida == especialidad_norm) with
  | some row => ⟨row.servicios_sugeridos, row.scores, row.tipo_coincidencia⟩
  | none =>
    if nivel_triage = "T1" ∨ nivel_triage = "T2" ∨ nivel_triage = "T3" then
      ⟨["urgencias_medico_general"], [1], "fallback"⟩
    else
      ⟨["consulta_medicina_general"], [1], "fallback"⟩

/-! ### `utils/input_data/providers_utils.py` — directory cleaning -/

/-- One raw provider record, one field per column the cleaner consumes
(column-name normalization, step 1 of the source, is represented by the
field names themselves; extra columns are irrelevant to every claim). -/
structure RawProvider where
  prestador : Option String
  direccionamiento : Int
  valor_latitud : Option ℚ
  valor_longitud : Option ℚ
  concepto_factura : PyVal
  sucursal_prestador : String
  departamento : String
  municipio : String
  direccion_domicilio : String
  horario_habil : String
  telefono : String
  telefono_celular : String
deriving DecidableEq, Repr

/-- One cleaned provider row (the step-8 projection). -/
structure Provider where
  prestador : String
  sucursal : String
  departamento : String
  municipio : String
  direccion : String
  lat : ℚ
  lng : ℚ
  servicio_prestador : String
  prioridad_recomendacion : Int
  horario : String
  telefono_fijo : String
  telefono_celular : String
deriving DecidableEq, Repr

/-- Default provider blacklist (`providers_utils.py` lines 66-70). -/
def prestadores_to_drop_default : List String :=
  ["ORDEN DE COMPRA PUNTUAL", "IPS DE ATENCION INICIALPOR CONFIRMAR"]

/-- Default allowed-service list (`providers_utils.py` lines 73-100). -/
def servicios_prestadores_default : List String :=
  ["urgencias_medico_general",
   "consulta_no_programada",
   "urgencias_riesgo_biologico",
   "consulta_ortopedista",
   "urgencias_ortopedista",
   "consulta_medicina_fisica_y_de_deporte_l",
   "consulta_odontologica",
   "consulta_prioritaria_odontologia_l",
   "urgencias_odontologia_l",
   "consulta_prioritaria_de_oftalmologia_l",
   "consulta_oftalmologia",
   "cirugia_oftalmologia",
   "urgencias_oftalmologia",
   "consulta_medicina_interna",
   "consulta_medicin_interna_telemedicina_l",
   "consulta_urologia",
   "cirugia_urologia",
   "consulta_otorrinolaringologia",
   "cirugia_otorrinolaringologia",
   "consulta_dermatologia_telemedicina_l",
   "consulta_y_procedimientos_dermatologia",
   "urgencia_cirugia_plastica",
   "consulta_psicologo_y_terapia_psicologica",
   "consulta_neurologo",
   "consulta_cirujano_general"]

/-- Step 6.5 renaming table (`providers_utils.py` lines 154-165): collapse
near-duplicate service labels into canonical identifiers; unlisted labels
are unchanged. -/
def renameService (s : String) : String :=
  if s = "consulta_medicina_fisica_y_de_deporte_l" then "consulta_deportologia"
  else if s = "consulta_prioritaria_odontologia_l" then "consulta_prioritaria_odontologia"
  else if s = "urgencias_odontologia_l" then "urgencias_odontologia"
  else if s = "consulta_prioritaria_de_oftalmologia_l" then "consulta_prioritaria_oftalmologia"
  else if s = "consulta_medicin_interna_telemedicina_l" then "consulta_medicina_interna_telemedicina"
  else if s = "consulta_dermatologia_telemedicina_l" then "consulta_dermatologia_telemedicina"
  else if s = "consulta_no_programada" then "consulta_medicina_general"
  else if s = "consulta_cirujano_general" then "consulta_cirugia_general"
  else s

/-- The cleaned service id of a raw record: `text_cleaning(concepto_factura)`
when that was a string, `none` for NaN cells (which the allow-list filter
then drops, since `NaN.isin(list)` is false). -/
def rawServicio (u : UnicodeModel) (r : RawProvider) : Option String :=
  match text_cleaning u r.concepto_factura with
  | .pstr s => some s
  | _ => none

/-- `providers_utils.py::clean_providers_data` (lines 19-204): drop null or
blacklisted provider names; drop `direccionamiento == 9`; drop null or zero
coordinates; clean the service label and keep only allow-listed ones; apply
the step-6.5 renaming; title-case department/municipality; project to the
canonical column set.  (The source stores the cleaned service label in a
new column at step 5; here it is recomputed with the same pure function at
the projection.) -/
def clean_providers_data (u : UnicodeModel) (df : List RawProvider)
    (servicios_prestadores : List String) (prestadores_to_drop : List String) :
    List Provider :=
  let s2 := df.filter fun r =>
    match r.prestador with
    | some p => decide (p ∉ prestadores_to_drop)
    | none => false
  let s3 := s2.filter fun r => decide (r.direccionamiento ≠ 9)
  let s4 := s3.filter fun r =>
    match r.valor_latitud, r.valor_longitud with
    | some la, some lo => decide (la ≠ 0 ∧ lo ≠ 0)
    | _, _ => false
  let s6 := s4.filter fun r =>
    match rawServicio u r with
    | some s => decide (s ∈ servicios_prestadores)
    | none => false
  s6.map fun r =>
    { prestador := r.prestador.getD "",
      sucursal := r.sucursal_prestador,
      departamento := pyTitle r.departamento,
      municipio := pyTitle r.municipio,
      direccion := r.direccion_domicilio,
      lat := r.valor_latitud.getD 0,
      lng := r.valor_longitud.getD 0,
      servicio_prestador := renameService ((rawServicio u r).getD ""),
      prioridad_recomendacion := r.direccionamiento,
      horario := r.horario_habil,
      telefono_fijo := r.telefono,
      telefono_celular := r.telefono_celular }

/-- The composite merge key: (sucursal, departamento, municipio). -/
def provKey (p : Provider) : String × String × String :=
  (p.sucursal, p.departamento, p.municipio)

/-- `providers_utils.py::merge_provider_locations` (lines 207-315) with the
default key and location columns: deduplicate the urgent-care table on the
composite key keeping first occurrences, then, for each kept key row in
order, overwrite the location fields of every matching main row.  The
source mutates a `df_main.copy()`; the fold below is that loop. -/
def merge_provider_locations (df_main df_urg : List Provider) : List Provider :=
  let urg_locations := dedupByKey provKey df_urg
  urg_locations.foldl
    (fun acc urgRow =>
      acc.map fun m =>
        if provKey m = provKey urgRow then
          { m with direccion := urgRow.direccion, lat := urgRow.lat, lng := urgRow.lng }
        else m)
    df_main

/-! ### `recommendation_engine.py::filter_providers_by_service_and_location` -/

/-- A provider row with the optional `distancia_km` annotation. -/
structure RankedProvider where
  provider : Provider
  distancia_km : Option ℚ
deriving DecidableEq, Repr

/-- The two-key ascending order of the distance branch:
`sort_values(by=["distancia_km", "prioridad_recomendacion"])`. -/
def distPrioAsc (a b : RankedProvider) : Prop :=
  a.distancia_km.getD 0 < b.distancia_km.getD 0 ∨
  (a.distancia_km.getD 0 = b.distancia_km.getD 0 ∧
   a.provider.prioridad_recomendacion ≤ b.provider.prioridad_recomendacion)

instance : DecidableRel distPrioAsc := fun _ _ =>
  inferInstanceAs (Decidable (_ ∨ _))

/-- The one-key ascending order of the no-location branch:
`sort_values(by="prioridad_recomendacion")`. -/
def prioAsc (a b : RankedProvider) : Prop :=
  a.provider.prioridad_recomendacion ≤ b.provider.prioridad_recomendacion

instance : DecidableRel prioAsc := fun _ _ =>
  inferInstanceAs (Decidable (_ ≤ _))

instance : IsTrans RankedProvider distPrioAsc := by
  constructor
  intro a b c hab hbc
  rcases hab with h | h <;> rcases hbc with h' | h'
  · exact Or.inl (lt_trans h h')
  · exact Or.inl (h'.1 ▸ h)
  · exact Or.inl (h.1 ▸ h')
  · exact Or.inr ⟨h.1.trans h'.1, le_trans h.2 h'.2⟩

instance : IsTotal RankedProvider distPrioAsc := by
  constructor
  intro a b
  rcases lt_trichotomy (a.distancia_km.getD 0) (b.distancia_km.getD 0) with h | h | h
  · exact Or.inl (Or.inl h)
  · rcases le_total a.provider.prioridad_recomendacion
        b.provider.prioridad_recomendacion with hp | hp
    · exact Or.inl (Or.inr ⟨h, hp⟩)
    · exact Or.inr (Or.inr ⟨h.symm, hp⟩)
  · exact Or.inr (Or.inl h)

instance : IsTrans RankedProvider prioAsc := by
  constructor
  intro a b c hab hbc
  exact le_trans hab hbc

instance : IsTotal RankedProvider prioAsc := by
  constructor
  intro a b
  exact le_total _ _

/-- `recommendation_engine.py::filter_providers_by_service_and_location`
(lines 183-280).  The provider table (loaded and cleaned from files in the
source) is a parameter; `dist` abstracts the inner `haversine` closure
(`dist userLat userLng rowLat rowLng`), whose trigonometric formula is
external real arithmetic.  Steps: clean and title-case the user
department/municipality; filter by service membership; filter by
case-insensitive department/municipality equality; if a user location was
given and rows remain, annotate each row with its distance, drop rows
beyond `max_distance_km` and sort ascending by (distance, priority);
otherwise sort ascending by priority with no distance populated. -/
def filter_providers_by_service_and_location
    (u : UnicodeModel) (dist : ℚ → ℚ → ℚ → ℚ → ℚ)
    (servicios : List String) (departamento municipio : String)
    (prestadores_final : List Provider)
    (user_location : Option (ℚ × ℚ)) (max_distance_km : ℚ) : List RankedProvider :=
  let dep := pyTitle (text_cleaning_str u departamento)
  let mun := pyTitle (text_cleaning_str u municipio)
  let filtered := prestadores_final.filter fun p =>
    decide (p.servicio_prestador ∈ servicios)
  let filtered := filtered.filter fun p =>
    pyLower p.departamento == pyLower dep && pyLower p.municipio == pyLower mun
  match user_location with
  | some loc =>
    if filtered ≠ [] then
      let annotated := filtered.map fun p =>
        (⟨p, some (dist loc.1 loc.2 p.lat p.lng)⟩ : RankedProvider)
      let annotated := annotated.filter fun rp =>
        decide (rp.distancia_km.getD 0 ≤ max_distance_km)
      List.insertionSort distPrioAsc annotated
    else
      List.insertionSort prioAsc (filtered.map fun p => ⟨p, none⟩)
  | none =>
    List.insertionSort prioAsc (filtered.map fun p => ⟨p, none⟩)

/-! ### `utils/input_data/triage_symptoms.py` — column discovery -/

/-- A raised Python exception, by class and message. -/
inductive PyError where
  | valueError (msg : String)
  | keyError (msg : String)
deriving DecidableEq, Repr

/-- Header normalization of `build_triage_combinations` (lines 509-515):
NFKD, ASCII-encode ignoring errors, lowercase, strip. -/
def headerNormalize (u : UnicodeModel) (c : String) : String :=
  pyStrip ⟨((u.nfkd c.data).filter fun ch => ch.toNat < 128).map pyLowerChar⟩

/-- `next((c for c in posibles_cols if needle in c), None)`. -/
def findCol (needle : String) (cols : List String) : Option String :=
  cols.find? fun c => containsSub c needle

/-- The fixed message of the configuration `ValueError` (line 529). -/
def triage_required_cols_msg : String :=
  "No se encontraron todas las columnas necesarias en el Excel."

/-- The column-discovery and column-selection steps of
`triage_symptoms.py::build_triage_combinations` (lines 505-540), up to the
point where the six role columns are selected.  Returns the selected
column names, or the Python exception the source raises: the generic
`ValueError` when one of the five required roles is missing (`all(...)` on
the discovered names is truthiness; a discovered name is never the empty
string because it contains its needle, so truthiness coincides with
`isSome`), and the `KeyError` that `df[columnas_utiles]` raises when
`col_especialidad` stayed `None` yet the five required roles were found. -/
def build_triage_combinations_cols (u : UnicodeModel) (raw_cols : List String) :
    Except PyError (List String) :=
  let posibles_cols := raw_cols.map (headerNormalize u)
  let col_categoria := findCol "categ" posibles_cols
  let col_sintoma := findCol "sintoma" posibles_cols
  let col_modificador := findCol "modif" posibles_cols
  let col_triage := findCol "triage" posibles_cols
  let col_modalidad := findCol "modal" posibles_cols
  let col_especialidad := findCol "especial" posibles_cols
  if col_categoria.isSome ∧ col_sintoma.isSome ∧ col_modificador.isSome ∧
     col_triage.isSome ∧ col_modalidad.isSome then
    match col_especialidad with
    | some e =>
      .ok [col_categoria.getD "", col_sintoma.getD "", col_modificador.getD "",
           col_triage.getD "", col_modalidad.getD "", e]
    | none => .error (.keyError "[None] not in index")
  else
    .error (.valueError triage_required_cols_msg)

/-- Adjacent characters are not both whitespace — the structural invariant
of the output of the `\s+` collapse, used to prove the normalizer
idempotent. -/
def noWsPair (a b : Char) : Prop := ¬(isPySpace a = true ∧ isPySpace b = true)

/-! ### Helper lemmas: deduplication -/

theorem mem_of_mem_dedupByKeyAux {α κ : Type} [DecidableEq κ] (key : α → κ)
    (seen : List κ) (l : List α) (a : α) (h : a ∈ dedupByKeyAux key seen l) :
    a ∈ l := by
  induction l generalizing seen with
  | nil => simp [dedupByKeyAux] at h
  | cons x xs ih =>
    simp only [dedupByKeyAux] at h
    split at h
    · exact List.mem_cons_of_mem _ (ih _ h)
    · rcases List.mem_cons.mp h with h1 | h1
      · exact h1 ▸ List.mem_cons_self _ _
      · exact List.mem_cons_of_mem _ (ih _ h1)

theorem mem_of_mem_dedupByKey {α κ : Type} [DecidableEq κ] (key : α → κ)
    (l : List α) (a : α) (h : a ∈ dedupByKey key l) : a ∈ l :=
  mem_of_mem_dedupByKeyAux key [] l a h

theorem dedupByKeyAux_eq_self {α κ : Type} [DecidableEq κ] (key : α → κ)
    (seen : List κ) (l : List α) (hnd : (l.map key).Nodup)
    (hseen : ∀ a ∈ l, key a ∉ seen) : dedupByKeyAux key seen l = l := by
  induction l generalizing seen with
  | nil => rfl
  | cons x xs ih =>
    simp only [List.map_cons, List.nodup_cons] at hnd
    simp only [dedupByKeyAux]
    rw [if_neg (hseen x (List.mem_cons_self _ _))]
    congr 1
    refine ih _ hnd.2 ?_
    intro a ha
    simp only [List.mem_cons, not_or]
    exact ⟨fun hk => hnd.1 (hk ▸ List.mem_map_of_mem key ha),
           hseen a (List.mem_cons_of_mem _ ha)⟩

theorem dedupFirst_of_nodup (l : List String) (h : l.Nodup) : dedupFirst l = l :=
  dedupByKeyAux_eq_self id [] l (by simpa using h) (by simp)

/-! ### Helper lemmas: rounding -/

theorem pyRound3_mono {a b : ℚ} (h : b ≤ a) : pyRound3 b ≤ pyRound3 a := by
  simp only [pyRound3]
  have h1000 : ∀ x y : ℚ, x ≤ y → x / 1000 ≤ y / 1000 := fun x y hxy => by linarith
  apply h1000
  have hy : b * 1000 ≤ a * 1000 := by nlinarith
  have hfl : ⌊b * 1000⌋ ≤ ⌊a * 1000⌋ := Int.floor_le_floor hy
  have hra0 : (0 : ℚ) ≤ a * 1000 - ⌊a * 1000⌋ := by
    have := Int.floor_le (a * 1000); linarith
  have hra1 : a * 1000 - ⌊a * 1000⌋ < 1 := by
    have := Int.lt_floor_add_one (a * 1000); linarith
  have hrb0 : (0 : ℚ) ≤ b * 1000 - ⌊b * 1000⌋ := by
    have := Int.floor_le (b * 1000); linarith
  have hrb1 : b * 1000 - ⌊b * 1000⌋ < 1 := by
    have := Int.lt_floor_add_one (b * 1000); linarith
  rcases lt_or_eq_of_le hfl with hlt | heq
  · have hcast : (⌊b * 1000⌋ : ℚ) + 1 ≤ (⌊a * 1000⌋ : ℚ) := by exact_mod_cast hlt
    split_ifs <;> linarith
  · rw [heq] at *
    split_ifs <;> linarith

/-! ### Helper lemmas: characters -/

theorem clean_toNat {c : Char} (h : isCleanChar c = true) :
    (97 ≤ c.toNat ∧ c.toNat ≤ 122) ∨ (48 ≤ c.toNat ∧ c.toNat ≤ 57) ∨ c.toNat = 95 := by
  simp only [isCleanChar, isLowerAlnum, Bool.or_eq_true, decide_eq_true_eq,
    beq_iff_eq] at h
  rcases h with (h | h) | h
  · exact Or.inl h
  · exact Or.inr (Or.inl h)
  · subst h; exact Or.inr (Or.inr (by decide))

theorem isPySpace_toNat {c : Char} (h : isPySpace c = true) :
    c.toNat = 32 ∨ c.toNat = 9 ∨ c.toNat = 10 ∨ c.toNat = 13 ∨
    c.toNat = 11 ∨ c.toNat = 12 := by
  simp only [isPySpace, Bool.or_eq_true, beq_iff_eq] at h
  rcases h with ((((h | h) | h) | h) | h) | h <;> subst h <;> decide

theorem isLowerAlnum_toNat {c : Char} (h : isLowerAlnum c = true) :
    (97 ≤ c.toNat ∧ c.toNat ≤ 122) ∨ (48 ≤ c.toNat ∧ c.toNat ≤ 57) := by
  simpa only [isLowerAlnum, Bool.or_eq_true, decide_eq_true_eq] using h

theorem isPySpace_eq_false_of_clean {c : Char} (h : isCleanChar c = true) :
    isPySpace c = false := by
  cases hsp : isPySpace c with
  | false => rfl
  | true => have := isPySpace_toNat hsp; have := clean_toNat h; omega

theorem isPySpace_eq_false_of_lowerAlnum {c : Char} (h : isLowerAlnum c = true) :
    isPySpace c = false := by
  cases hsp : isPySpace c with
  | false => rfl
  | true => have := isPySpace_toNat hsp; have := isLowerAlnum_toNat h; omega

theorem pyLowerChar_eq_self_of_clean {c : Char} (h : isCleanChar c = true) :
    pyLowerChar c = c := by
  have hn := clean_toNat h
  unfold pyLowerChar
  rw [if_neg]
  omega

theorem clean_isAscii {c : Char} (h : isCleanChar c = true) : c.toNat < 128 := by
  have := clean_toNat h; omega

theorem beq_space_eq_false_of_lowerAlnum {c : Char} (h : isLowerAlnum c = true) :
    (c == ' ') = false := by
  rw [beq_eq_false_iff_ne]
  intro hc
  subst hc
  exact absurd h (by decide)

/-! ### Helper lemmas: the normalizer pipeline -/

theorem sub_chars {l : List Char} {c : Char} (h : c ∈ subNonAlnumToSpace l) :
    isLowerAlnum c = true ∨ isPySpace c = true := by
  obtain ⟨x, _, rfl⟩ := List.mem_map.mp h
  by_cases hx : (isLowerAlnum x || isPySpace x) = true
  · rw [if_pos hx]; exact Bool.or_eq_true _ _ |>.mp hx
  · rw [if_neg hx]; right; decide

theorem collapse_chars {l : List Char} {b : Bool} {c : Char}
    (h : c ∈ collapseWsAux b l) : (c ∈ l ∧ isPySpace c = false) ∨ c = ' ' := by
  induction l generalizing b with
  | nil => simp [collapseWsAux] at h
  | cons x xs ih =>
    simp only [collapseWsAux] at h
    by_cases hx : isPySpace x = true
    · rw [if_pos hx] at h
      cases b with
      | true =>
        rw [if_pos rfl] at h
        rcases ih h with ⟨h2, h3⟩ | h2
        · exact Or.inl ⟨List.mem_cons_of_mem _ h2, h3⟩
        · exact Or.inr h2
      | false =>
        rw [if_neg (by decide)] at h
        rcases List.mem_cons.mp h with h1 | h1
        · exact Or.inr h1
        · rcases ih h1 with ⟨h2, h3⟩ | h2
          · exact Or.inl ⟨List.mem_cons_of_mem _ h2, h3⟩
          · exact Or.inr h2
    · rw [if_neg hx] at h
      have hx' : isPySpace x = false := by simpa using hx
      rcases List.mem_cons.mp h with h1 | h1
      · subst h1
        exact Or.inl ⟨List.mem_cons_self _ _, hx'⟩
      · rcases ih h1 with ⟨h2, h3⟩ | h2
        · exact Or.inl ⟨List.mem_cons_of_mem _ h2, h3⟩
        · exact Or.inr h2

theorem pyStripList_sublist (l : List Char) : (pyStripList l).Sublist l := by
  unfold pyStripList
  have h1 : (List.dropWhile isPySpace l).Sublist l := List.dropWhile_sublist _
  have h2 : ((l.dropWhile isPySpace).reverse.dropWhile isPySpace).Sublist
      (l.dropWhile isPySpace).reverse := List.dropWhile_sublist _
  have h3 := h2.reverse
  rw [List.reverse_reverse] at h3
  exact h3.trans h1

theorem collapse_head_true {l : List Char} {c : Char} {cs : List Char}
    (h : collapseWsAux true l = c :: cs) : isPySpace c = false := by
  induction l generalizing c cs with
  | nil => simp [collapseWsAux] at h
  | cons x xs ih =>
    simp only [collapseWsAux] at h
    by_cases hx : isPySpace x = true
    · simp only [hx, if_true] at h
      exact ih h
    · rw [if_neg hx] at h
      cases h
      simpa using hx

theorem collapse_chain {l : List Char} (b : Bool) :
    List.Chain' noWsPair (collapseWsAux b l) := by
  induction l generalizing b with
  | nil => simp [collapseWsAux]
  | cons x xs ih =>
    simp only [collapseWsAux]
    by_cases hx : isPySpace x = true
    · rw [if_pos hx]
      cases b with
      | true => rw [if_pos rfl]; exact ih true
      | false =>
        rw [if_neg (by decide)]
        rw [List.chain'_cons']
        refine ⟨?_, ih true⟩
        intro y hy
        cases hh : collapseWsAux true xs with
        | nil => rw [hh] at hy; simp at hy
        | cons z zs =>
          rw [hh] at hy
          simp only [List.head?_cons, Option.mem_def, Option.some_inj] at hy
          subst hy
          exact fun hcon => by simp [collapse_head_true hh] at hcon
    · rw [if_neg hx]
      rw [List.chain'_cons']
      refine ⟨?_, ih false⟩
      intro y _
      exact fun hcon => by simp [hcon.1] at hx

theorem collapse_eq_self {l : List Char} (hchain : List.Chain' noWsPair l)
    (hsp : ∀ c ∈ l, isPySpace c = true → c = ' ') :
    collapseWsAux false l = l := by
  induction l with
  | nil => rfl
  | cons x xs ih =>
    simp only [collapseWsAux]
    by_cases hx : isPySpace x = true
    · rw [if_pos hx, if_neg (by decide)]
      have hx' : x = ' ' := hsp x (List.mem_cons_self _ _) hx
      have htail : collapseWsAux false xs = xs :=
        ih hchain.tail (fun c hc => hsp c (List.mem_cons_of_mem _ hc))
      cases xs with
      | nil => simp [collapseWsAux, hx']
      | cons y ys =>
        have hy : isPySpace y = false := by
          rcases List.chain'_cons.mp hchain with ⟨hpair, _⟩
          cases hyy : isPySpace y with
          | false => rfl
          | true => exact absurd ⟨hx, hyy⟩ hpair
        simp only [collapseWsAux, hy] at htail ⊢
        rw [if_neg (by simp [hy])] at htail ⊢
        rw [hx', htail]
    · rw [if_neg hx]
      congr 1
      exact ih hchain.tail (fun c hc => hsp c (List.mem_cons_of_mem _ hc))

theorem chain_pyStripList {l : List Char} (h : List.Chain' noWsPair l) :
    List.Chain' noWsPair (pyStripList l) := by
  have hsymm : ∀ a b : Char, noWsPair a b → noWsPair b a := by
    intro a b hab hcon
    exact hab ⟨hcon.2, hcon.1⟩
  have hdrop : ∀ m : List Char, List.Chain' noWsPair m →
      List.Chain' noWsPair (m.dropWhile isPySpace) := by
    intro m hm
    induction m with
    | nil => exact hm
    | cons x xs ih =>
      by_cases hx : isPySpace x = true
      · rw [List.dropWhile_cons_of_pos hx]
        exact ih hm.tail
      · rw [List.dropWhile_cons_of_neg hx]
        exact hm
  have hrev : ∀ m : List Char, List.Chain' noWsPair m →
      List.Chain' noWsPair m.reverse := by
    intro m hm
    rw [List.chain'_reverse]
    exact hm.imp (fun a b hab => hsymm a b hab)
  exact hrev _ (hdrop _ (hrev _ (hdrop _ h)))

theorem dropWhile_head_false {p : Char → Bool} {l : List Char} {c : Char}
    {cs : List Char} (h : l.dropWhile p = c :: cs) : p c = false := by
  induction l with
  | nil => simp at h
  | cons x xs ih =>
    by_cases hx : p x = true
    · rw [List.dropWhile_cons_of_pos hx] at h
      exact ih h
    · rw [List.dropWhile_cons_of_neg hx] at h
      cases h
      simpa using hx

theorem dropWhile_dropWhile (p : Char → Bool) (l : List Char) :
    (l.dropWhile p).dropWhile p = l.dropWhile p := by
  cases hh : l.dropWhile p with
  | nil => rfl
  | cons c cs => rw [List.dropWhile_cons_of_neg (by simp [dropWhile_head_false hh])]

theorem pyStripList_idem (l : List Char) :
    pyStripList (pyStripList l) = pyStripList l := by
  unfold pyStripList
  set d := l.dropWhile isPySpace with hd
  set w := (d.reverse.dropWhile isPySpace).reverse with hw
  have h6 : w.reverse = d.reverse.dropWhile isPySpace := by
    rw [hw, List.reverse_reverse]
  have hdw : w.dropWhile isPySpace = w := by
    cases hwc : w with
    | nil => rfl
    | cons c cs =>
      have hwd : d = w ++ (d.reverse.takeWhile isPySpace).reverse := by
        conv_lhs => rw [← List.reverse_reverse d,
          ← List.takeWhile_append_dropWhile isPySpace d.reverse]
        rw [List.reverse_append, ← hw]
      have hdc : List.dropWhile isPySpace l =
          c :: (cs ++ (d.reverse.takeWhile isPySpace).reverse) := by
        rw [← hd]
        nth_rewrite 1 [hwd]
        rw [hwc]
        simp
      have hc : isPySpace c = false := dropWhile_head_false hdc
      rw [List.dropWhile_cons_of_neg (by simp [hc])]
  rw [hdw, h6, dropWhile_dropWhile, ← h6, List.reverse_reverse]

theorem cleanTail_chars {l : List Char} {c : Char} (h : c ∈ cleanTail l) :
    isLowerAlnum c = true ∨ c = ' ' := by
  have h1 : c ∈ collapseWs (subNonAlnumToSpace l) := (pyStripList_sublist _).subset h
  rcases collapse_chars h1 with ⟨h2, h3⟩ | h2
  · rcases sub_chars h2 with h4 | h4
    · exact Or.inl h4
    · rw [h4] at h3; cases h3
  · exact Or.inr h2

theorem cleanTail_chain (l : List Char) : List.Chain' noWsPair (cleanTail l) :=
  chain_pyStripList (collapse_chain false)

theorem cleanTail_strip (l : List Char) : pyStripList (cleanTail l) = cleanTail l :=
  pyStripList_idem _

theorem cleanTail_roundtrip (W : List Char)
    (hch : ∀ c ∈ W, isLowerAlnum c = true ∨ c = ' ')
    (hchain : List.Chain' noWsPair W)
    (hstrip : pyStripList W = W) :
    cleanTail (W.map fun c => if c == ' ' then '_' else c) = W := by
  have hsub : subNonAlnumToSpace (W.map fun c => if c == ' ' then '_' else c) = W := by
    unfold subNonAlnumToSpace
    rw [List.map_map]
    have hpt : ∀ c ∈ W, ((fun c => if isLowerAlnum c || isPySpace c then c else ' ') ∘
        fun c => if c == ' ' then '_' else c) c = id c := by
      intro c hc
      rcases hch c hc with h | h
      · have hne : c ≠ ' ' := by
          intro hceq; subst hceq; exact absurd h (by decide)
        simp [Function.comp_apply, hne, h, id]
      · subst h; decide
    rw [List.map_congr_left hpt, List.map_id]
  have hsp : ∀ c ∈ W, isPySpace c = true → c = ' ' := by
    intro c hc hws
    rcases hch c hc with h | h
    · rw [isPySpace_eq_false_of_lowerAlnum h] at hws; cases hws
    · exact h
  unfold cleanTail
  rw [hsub]
  have hcoll : collapseWs W = W := collapse_eq_self hchain hsp
  rw [hcoll, hstrip]

theorem text_cleaning_str_chars (u : UnicodeModel) (t : String) :
    ∀ c ∈ (text_cleaning_str u t).data, isCleanChar c = true := by
  intro c hc
  obtain ⟨x, hx, rfl⟩ := List.mem_map.mp hc
  rcases cleanTail_chars hx with h | h
  · simp [beq_space_eq_false_of_lowerAlnum h, isCleanChar, h]
  · subst h; decide

/-- C6: the text normalizer `text_cleaning` is idempotent
(`normalize(normalize(x)) == normalize(x)` for every string `x`) and its
output contains only `[a-z0-9_]` characters, for every input string.  The
hypotheses state the facts about the Unicode collaborator this relies on:
NFD and NFKD decomposition are the identity on `[a-z0-9_]` strings and no
such character is a combining mark — both true of real Unicode. -/
theorem text_cleaning_idempotent_and_charset (u : UnicodeModel)
    (hnfd : ∀ l : List Char, (∀ c ∈ l, isCleanChar c = true) → u.nfd l = l)
    (hnfkd : ∀ l : List Char, (∀ c ∈ l, isCleanChar c = true) → u.nfkd l = l)
    (hmn : ∀ c : Char, isCleanChar c = true → u.isMn c = false) (s : String) :
    (∀ c ∈ (text_cleaning_str u s).data, isCleanChar c = true) ∧
    text_cleaning_str u (text_cleaning_str u s) = text_cleaning_str u s := by
  have hchars := text_cleaning_str_chars u
  refine ⟨hchars s, ?_⟩
  set r := text_cleaning_str u s with hr
  have hclean : ∀ c ∈ r.data, isCleanChar c = true := hchars s
  have hl2big : r.data = (cleanTail ((u.nfkd ((u.nfd (s.data.map pyLowerChar)).filter
      fun c => !u.isMn c)).filter fun c => c.toNat < 128)).map
      (fun c => if c == ' ' then '_' else c) := by rw [hr]; rfl
  obtain ⟨l2x, hl2⟩ : ∃ l2x, r.data =
      (cleanTail l2x).map fun c => if c == ' ' then '_' else c := ⟨_, hl2big⟩
  have h0 : r.data.map pyLowerChar = r.data :=
    (List.map_congr_left fun c hc => pyLowerChar_eq_self_of_clean (hclean c hc)).trans
      (List.map_id _)
  have h1 : (u.nfd r.data).filter (fun c => !u.isMn c) = r.data := by
    rw [hnfd _ hclean]
    rw [List.filter_eq_self.mpr]
    intro a ha
    simp [hmn a (hclean a ha)]
  have h2 : (u.nfkd r.data).filter (fun c => c.toNat < 128) = r.data := by
    rw [hnfkd _ hclean]
    rw [List.filter_eq_self.mpr]
    intro a ha
    simp [clean_isAscii (hclean a ha)]
  have hW := cleanTail_roundtrip (cleanTail l2x)
    (fun c hc => cleanTail_chars hc) (cleanTail_chain l2x) (cleanTail_strip l2x)
  simp only [text_cleaning_str]
  rw [h0, h1, h2, hl2, hW, ← hl2]

/-- Witness for C6 at the ASCII Unicode model and a concrete string. -/
theorem text_cleaning_idempotent_and_charset_witness :
    (∀ c ∈ (text_cleaning_str asciiUnicodeModel "Medico  Cirugia!").data,
      isCleanChar c = true) ∧
    text_cleaning_str asciiUnicodeModel
        (text_cleaning_str asciiUnicodeModel "Medico  Cirugia!") =
      text_cleaning_str asciiUnicodeModel "Medico  Cirugia!" :=
  text_cleaning_idempotent_and_charset asciiUnicodeModel
    (fun _ _ => rfl) (fun _ _ => rfl) (fun _ _ => rfl) "Medico  Cirugia!"

/-- C9 counterexample: the normalizer does not pass non-string non-null
input through unchanged — the integer `5` comes back as the *string*
`"5"`, not as the integer itself. -/
theorem text_cleaning_passthrough_counterexample :
    text_cleaning asciiUnicodeModel (.pint 5) = .pstr "5" ∧
    PyVal.pstr "5" ≠ PyVal.pint 5 := by decide

/-- C9 amended: only null values (`None`/`NaN`, i.e. `pd.isna`) pass
through unchanged; every non-null input — string or not — is converted
with `str()` and normalized, and the result is a string over
`[a-z0-9_]`. -/
theorem text_cleaning_null_passthrough (u : UnicodeModel) (v : PyVal) :
    (pd_isna v = true → text_cleaning u v = v) ∧
    (pd_isna v = false → ∃ s : String, text_cleaning u v = .pstr s ∧
      ∀ c ∈ s.data, isCleanChar c = true) := by
  constructor
  · intro h
    simp [text_cleaning, h]
  · intro h
    exact ⟨text_cleaning_str u (pyStr v), by simp [text_cleaning, h],
      text_cleaning_str_chars u (pyStr v)⟩

/-- Witness for C9's amended theorem at `NaN` and at the integer `5`. -/
theorem text_cleaning_null_passthrough_witness :
    text_cleaning asciiUnicodeModel .pnan = .pnan ∧
    ∃ s : String, text_cleaning asciiUnicodeModel (.pint 5) = .pstr s ∧
      ∀ c ∈ s.data, isCleanChar c = true :=
  ⟨(text_cleaning_null_passthrough asciiUnicodeModel .pnan).1 rfl,
   (text_cleaning_null_passthrough asciiUnicodeModel (.pint 5)).2 rfl⟩

/-- C8 counterexample: with the `triage` role column absent, the builder
raises a `ValueError` whose fixed message does not name the missing role
(it mentions no role at all); and with all five required roles present but
the `specialty` role absent, the builder still fails (the column selection
raises), so the specialty role is in fact required for success. -/
theorem build_triage_cols_counterexample :
    build_triage_combinations_cols asciiUnicodeModel
        ["Categoria", "Sintoma", "Modificador", "Modalidad", "Especialidad"] =
      .error (.valueError triage_required_cols_msg) ∧
    containsSub triage_required_cols_msg "triage" = false ∧
    (∃ e, build_triage_combinations_cols asciiUnicodeModel
        ["Categoria", "Sintoma", "Modificador", "Triage", "Modalidad"] =
      .error e) := by
  exact ⟨by rfl, by decide, ⟨.keyError "[None] not in index", by rfl⟩⟩

/-- C8 amended: if any of the five required roles (category, symptom,
modifier, triage, modality) cannot be located by substring match, the
builder fails with the configuration `ValueError`, whose fixed message
names no role; moreover, if the five required roles are found but the
specialty role is not, the builder fails too (with a `KeyError` from the
column selection), so specialty is also effectively required. -/
theorem build_triage_combinations_cols_spec (u : UnicodeModel) (cols : List String) :
    (¬((findCol "categ" (cols.map (headerNormalize u))).isSome = true ∧
       (findCol "sintoma" (cols.map (headerNormalize u))).isSome = true ∧
       (findCol "modif" (cols.map (headerNormalize u))).isSome = true ∧
       (findCol "triage" (cols.map (headerNormalize u))).isSome = true ∧
       (findCol "modal" (cols.map (headerNormalize u))).isSome = true) →
      build_triage_combinations_cols u cols =
        .error (.valueError triage_required_cols_msg) ∧
      ∀ role ∈ ["categ", "sintoma", "modif", "triage", "modal"],
        containsSub triage_required_cols_msg role = false) ∧
    (((findCol "categ" (cols.map (headerNormalize u))).isSome = true ∧
      (findCol "sintoma" (cols.map (headerNormalize u))).isSome = true ∧
      (findCol "modif" (cols.map (headerNormalize u))).isSome = true ∧
      (findCol "triage" (cols.map (headerNormalize u))).isSome = true ∧
      (findCol "modal" (cols.map (headerNormalize u))).isSome = true) →
     findCol "especial" (cols.map (headerNormalize u)) = none →
      build_triage_combinations_cols u cols =
        .error (.keyError "[None] not in index")) := by
  constructor
  · intro h
    refine ⟨?_, by decide⟩
    simp only [build_triage_combinations_cols]
    rw [if_neg h]
  · intro hall hesp
    simp only [build_triage_combinations_cols]
    rw [if_pos hall, hesp]

/-- Witness for C8's amended theorem: a header set missing the category
role hits the generic `ValueError`; a header set with the five required
roles but no specialty column hits the `KeyError`. -/
theorem build_triage_combinations_cols_spec_witness :
    (build_triage_combinations_cols asciiUnicodeModel
        ["Sintoma", "Modificador", "Triage", "Modalidad"] =
      .error (.valueError triage_required_cols_msg) ∧
      ∀ role ∈ ["categ", "sintoma", "modif", "triage", "modal"],
        containsSub triage_required_cols_msg role = false) ∧
    build_triage_combinations_cols asciiUnicodeModel
        ["Categorias", "Sintomas", "Modificadores", "Triage", "Modalidades"] =
      .error (.keyError "[None] not in index") :=
  ⟨(build_triage_combinations_cols_spec asciiUnicodeModel
      ["Sintoma", "Modificador", "Triage", "Modalidad"]).1 (by decide),
   (build_triage_combinations_cols_spec asciiUnicodeModel
      ["Categorias", "Sintomas", "Modificadores", "Triage", "Modalidades"]).2
     (by refine ⟨?_, ?_, ?_, ?_, ?_⟩ <;> decide) (by decide)⟩

/-- C7: `merge_provider_locations` preserves the primary table's row count,
and every primary row whose (sucursal, departamento, municipio) key has no
match in the override table comes through the merge byte-identical (the
`Forall₂` pairs each input row with the output row at the same position).
The source's non-mutation of its inputs corresponds to the `df_main.copy()`
it mutates; in this pure embedding it is inherent. -/
theorem merge_provider_locations_spec (df_main df_urg : List Provider) :
    (merge_provider_locations df_main df_urg).length = df_main.length ∧
    List.Forall₂ (fun m o => provKey m ∉ df_urg.map provKey → o = m)
      df_main (merge_provider_locations df_main df_urg) := by
  have key : ∀ (urgs : List Provider) (acc : List Provider),
      (∀ x ∈ urgs, x ∈ df_urg) →
      List.Forall₂ (fun m o => provKey m ∉ df_urg.map provKey → o = m) df_main acc →
      List.Forall₂ (fun m o => provKey m ∉ df_urg.map provKey → o = m) df_main
        (urgs.foldl (fun acc urgRow => acc.map fun m =>
          if provKey m = provKey urgRow then
            { m with direccion := urgRow.direccion, lat := urgRow.lat,
                     lng := urgRow.lng }
          else m) acc) := by
    intro urgs
    induction urgs with
    | nil => intro acc _ hacc; exact hacc
    | cons u us ih =>
      intro acc hmem hacc
      simp only [List.foldl_cons]
      refine ih _ (fun x hx => hmem x (List.mem_cons_of_mem _ hx)) ?_
      rw [List.forall₂_map_right_iff]
      refine hacc.imp ?_
      intro m o hmo hnot
      have ho : o = m := hmo hnot
      subst ho
      have hne : ¬(provKey o = provKey u) := by
        intro hkey
        exact hnot (by
          rw [hkey]
          exact List.mem_map_of_mem provKey (hmem u (List.mem_cons_self _ _)))
      rw [if_neg hne]
  have h2 := key (dedupByKey provKey df_urg) df_main
    (fun x hx => mem_of_mem_dedupByKey _ _ _ hx)
    (List.forall₂_same.mpr fun x _ => fun _ => rfl)
  exact ⟨h2.length_eq.symm, h2⟩

/-- Witness for C7 at a one-row primary table and an empty override. -/
theorem merge_provider_locations_spec_witness :
    (merge_provider_locations
      [⟨"p", "s", "d", "m", "dir", 1, 2, "svc", 1, "h", "t1", "t2"⟩] []).length = 1 := by
  have h := (merge_provider_locations_spec
    [⟨"p", "s", "d", "m", "dir", 1, 2, "svc", 1, "h", "t1", "t2"⟩] []).1
  simpa using h

/-! ### Helper lemmas: the fallback tier -/

theorem fin_fst_ne_nil (t2 : List String × List ℚ × String) (nivel : String) :
    (if t2.1 = [] then
       ((if nivel ∈ ["T1", "T2", "T3"] then ["urgencias_medico_general"]
         else ["consulta_medicina_general"]), ([1] : List ℚ), "fallback")
     else t2).1 ≠ [] := by
  by_cases h : t2.1 = []
  · rw [if_pos h]
    by_cases hn : nivel ∈ ["T1", "T2", "T3"] <;> simp [hn]
  · rw [if_neg h]; exact h

theorem build_entry_services_ne_nil (cfg : MatchCfg) (sc : List String) (th : ℚ)
    (k : ℕ) (scol : List String) (row : SintomasRow) :
    (build_entry cfg sc th k scol row).servicios_sugeridos ≠ [] := by
  simp only [build_entry]
  exact fin_fst_ne_nil _ _

theorem build_entry_fallback (cfg : MatchCfg) (sc : List String) (th : ℚ) (k : ℕ)
    (scol : List String) (row : SintomasRow)
    (h1 : row.categoria ∈ sc →
      (category_tier cfg row.categoria (triage_prefilter scol row.nivel_triage) th k).1 = [])
    (h2 : pyStrip row.especialidad ≠ "" →
      (specialty_tier cfg (pyStrip row.especialidad)
        (triage_prefilter scol row.nivel_triage) th k).1 = []) :
    build_entry cfg sc th k scol row =
      { categoria := row.categoria, nivel_triage := row.nivel_triage,
        modalidad_requerida := row.modalidad,
        especialidad_requerida := pyStrip row.especialidad,
        servicios_sugeridos :=
          if row.nivel_triage ∈ ["T1", "T2", "T3"] then ["urgencias_medico_general"]
          else ["consulta_medicina_general"],
        scores := [1], tipo_coincidencia := "fallback" } := by
  simp only [build_entry]
  split_ifs with hsc h2c h3c h4c h5c h6c h7c h8c h9c <;> first | rfl | simp_all

/-- C3: (1) when the category tier and the specialty tier of the
correspondence builder both yield no services for a combination, the entry
is exactly the hardcoded default — `urgencias_medico_general` for triage
levels T1-T3, `consulta_medicina_general` otherwise (in particular for
T4-T5) — with scores `[1.0]` and match type `"fallback"`; (2) when the
facade's correspondence lookup matches no row it returns the same
per-level fallback; (3) no entry of the built correspondence table ever
has an empty service list. -/
theorem fallback_policy_spec (cfg : MatchCfg) (special_categories : List String)
    (threshold : ℚ) (top_k : ℕ) (servicios_col : List String) (row : SintomasRow)
    (df_sintomas : List SintomasRow) (categoria nivel esp : String)
    (table : List CorrRow) :
    ((row.categoria ∈ special_categories →
        (category_tier cfg row.categoria
          (triage_prefilter servicios_col row.nivel_triage) threshold top_k).1 = []) →
     (pyStrip row.especialidad ≠ "" →
        (specialty_tier cfg (pyStrip row.especialidad)
          (triage_prefilter servicios_col row.nivel_triage) threshold top_k).1 = []) →
     (build_entry cfg special_categories threshold top_k servicios_col
          row).servicios_sugeridos =
        (if row.nivel_triage ∈ ["T1", "T2", "T3"] then ["urgencias_medico_general"]
         else ["consulta_medicina_general"]) ∧
     (build_entry cfg special_categories threshold top_k servicios_col row).scores = [1] ∧
     (build_entry cfg special_categories threshold top_k servicios_col
          row).tipo_coincidencia = "fallback") ∧
    ((∀ r ∈ table, ¬(r.categoria = categoria ∧ r.nivel_triage = nivel ∧
        r.especialidad_requerida = pyStrip (pyLower esp))) →
      get_recommended_services categoria nivel esp table =
        if nivel = "T1" ∨ nivel = "T2" ∨ nivel = "T3" then
          ⟨["urgencias_medico_general"], [1], "fallback"⟩
        else ⟨["consulta_medicina_general"], [1], "fallback"⟩) ∧
    (∀ e ∈ build_correspondence_table cfg special_categories threshold top_k
        df_sintomas servicios_col, e.servicios_sugeridos ≠ []) := by
  refine ⟨?_, ?_, ?_⟩
  · intro h1 h2
    have hb := build_entry_fallback cfg special_categories threshold top_k
      servicios_col row h1 h2
    rw [hb]
    exact ⟨rfl, rfl, rfl⟩
  · intro hnone
    simp only [get_recommended_services]
    rw [List.find?_eq_none.mpr]
    intro r hr
    have hno := hnone r hr
    simp only [Bool.and_eq_true, beq_iff_eq]
    intro hb
    exact hno ⟨hb.1.1, hb.1.2, hb.2⟩
  · intro e he
    simp only [build_correspondence_table] at he
    have he2 := mem_of_mem_dedupByKey _ _ _ he
    obtain ⟨row', _, rfl⟩ := List.mem_map.mp he2
    exact build_entry_services_ne_nil _ _ _ _ _ _

/-- Witness for C3 at a concrete configuration (zero similarity model, so
both tiers come up empty) and a T5 combination. -/
theorem fallback_policy_spec_witness :
    (build_entry ⟨"semantic", fun _ _ => 0, fun _ _ => 0⟩ special_categories_default
        1 3 ["urgencias_medico_general", "consulta_medicina_general"]
        ⟨"dolor", "T5", "virtual", "pediatria"⟩).servicios_sugeridos =
      ["consulta_medicina_general"] ∧
    get_recommended_services "dolor" "T5" "pediatria" [] =
      ⟨["consulta_medicina_general"], [1], "fallback"⟩ ∧
    ∀ e ∈ build_correspondence_table ⟨"semantic", fun _ _ => 0, fun _ _ => 0⟩
        special_categories_default 1 3 [⟨"dolor", "T5", "virtual", "pediatria"⟩]
        ["urgencias_medico_general", "consulta_medicina_general"],
      e.servicios_sugeridos ≠ [] := by
  have h := fallback_policy_spec ⟨"semantic", fun _ _ => 0, fun _ _ => 0⟩
    special_categories_default 1 3
    ["urgencias_medico_general", "consulta_medicina_general"]
    ⟨"dolor", "T5", "virtual", "pediatria"⟩
    [⟨"dolor", "T5", "virtual", "pediatria"⟩] "dolor" "T5" "pediatria" []
  refine ⟨?_, ?_, h.2.2⟩
  · have h1 := h.1 (fun hm => absurd hm (by decide)) (fun _ => by decide)
    rw [h1.1]
    decide
  · have h2 := h.2.1 (by simp)
    rw [h2]
    decide

/-! ### Helper lemmas: membership through strip, accented characters -/

theorem char_toNat_ofNat {n : ℕ} (h : n < 55296) : (Char.ofNat n).toNat = n := by
  rw [Char.ofNat, dif_pos (Or.inl h : Nat.isValidChar n)]
  simp [Char.ofNatAux, Char.toNat, UInt32.toNat, UInt32.ofNat', BitVec.toNat_ofNatLt]

theorem mem_dropWhile_of_mem {p : Char → Bool} {l : List Char} {c : Char}
    (hc : c ∈ l) (hpc : p c = false) : c ∈ l.dropWhile p := by
  induction l with
  | nil => simp at hc
  | cons x xs ih =>
    by_cases hx : p x = true
    · rw [List.dropWhile_cons_of_pos hx]
      rcases List.mem_cons.mp hc with h | h
      · subst h; rw [hpc] at hx; cases hx
      · exact ih h
    · rw [List.dropWhile_cons_of_neg hx]
      exact hc

theorem mem_pyStripList_of_mem {l : List Char} {c : Char}
    (hc : c ∈ l) (hpc : isPySpace c = false) : c ∈ pyStripList l := by
  unfold pyStripList
  rw [List.mem_reverse]
  refine mem_dropWhile_of_mem ?_ hpc
  rw [List.mem_reverse]
  exact mem_dropWhile_of_mem hc hpc

theorem pyLowerChar_accent {c : Char}
    (h : 192 ≤ c.toNat ∧ c.toNat ≤ 255 ∧ c.toNat ≠ 215 ∧ c.toNat ≠ 247) :
    192 ≤ (pyLowerChar c).toNat ∧ (pyLowerChar c).toNat ≤ 255 := by
  unfold pyLowerChar
  split_ifs with hc
  · rcases hc with hc | hc
    · omega
    · rw [char_toNat_ofNat (by omega)]
      omega
  · exact ⟨h.1, h.2.1⟩

/-- C10: the facade normalizes the incoming specialty only with
`.lower().strip()` and then requires exact equality with the stored key;
hence, for any correspondence table whose stored specialty keys contain
only `[a-z0-9_]` characters, a query specialty containing a Latin-1
accented letter, or an internal space surviving the strip, never matches
any row and always produces the triage-level fallback. -/
theorem facade_accent_space_fallback (table : List CorrRow)
    (categoria nivel esp : String)
    (hkeys : ∀ r ∈ table, ∀ c ∈ r.especialidad_requerida.data, isCleanChar c = true)
    (hq : (∃ c ∈ esp.data,
        192 ≤ c.toNat ∧ c.toNat ≤ 255 ∧ c.toNat ≠ 215 ∧ c.toNat ≠ 247) ∨
      ' ' ∈ (pyStrip (pyLower esp)).data) :
    get_recommended_services categoria nivel esp table =
      if nivel = "T1" ∨ nivel = "T2" ∨ nivel = "T3" then
        ⟨["urgencias_medico_general"], [1], "fallback"⟩
      else ⟨["consulta_medicina_general"], [1], "fallback"⟩ := by
  obtain ⟨b, hbmem, hbclean⟩ :
      ∃ b ∈ (pyStrip (pyLower esp)).data, isCleanChar b = false := by
    rcases hq with ⟨c, hc, hacc⟩ | hsp
    · have hlow := pyLowerChar_accent hacc
      have hnsp : isPySpace (pyLowerChar c) = false := by
        cases hx : isPySpace (pyLowerChar c) with
        | false => rfl
        | true => have := isPySpace_toNat hx; omega
      refine ⟨pyLowerChar c, ?_, ?_⟩
      · exact mem_pyStripList_of_mem (List.mem_map_of_mem pyLowerChar hc) hnsp
      · cases hx : isCleanChar (pyLowerChar c) with
        | false => rfl
        | true => have := clean_toNat hx; omega
    · exact ⟨' ', hsp, by decide⟩
  simp only [get_recommended_services]
  rw [List.find?_eq_none.mpr]
  intro r hr
  simp only [Bool.and_eq_true, beq_iff_eq]
  intro hb3
  have hkey := hkeys r hr
  rw [hb3.2] at hkey
  have hcontra := hkey b hbmem
  rw [hbclean] at hcontra
  cases hcontra

/-- Witness for C10: a table whose only key is the clean
`cirugia_general`, queried with the accented `cirugía general`. -/
theorem facade_accent_space_fallback_witness :
    get_recommended_services "dolor" "T5" "cirugía general"
      [⟨"dolor", "T5", "virtual", "cirugia_general",
        ["consulta_cirugia_general"], [1], "semantic_match"⟩] =
      if ("T5" : String) = "T1" ∨ ("T5" : String) = "T2" ∨ ("T5" : String) = "T3" then
        ⟨["urgencias_medico_general"], [1], "fallback"⟩
      else ⟨["consulta_medicina_general"], [1], "fallback"⟩ :=
  facade_accent_space_fallback _ "dolor" "T5" "cirugía general"
    (by decide) (Or.inl (by decide))

/-- C2 counterexample: a raw record whose service label cleans to the
allow-listed `consulta_no_programada` survives the allow-list filter and is
then renamed to `consulta_medicina_general`, which is *not* in the
configured allow-list. -/
theorem clean_providers_data_counterexample :
    (clean_providers_data asciiUnicodeModel
        [⟨some "IPS X", 1, some 1, some 2, .pstr "Consulta no programada", "suc",
          "Antioquia", "Medellin", "dir", "hor", "t1", "t2"⟩]
        servicios_prestadores_default prestadores_to_drop_default).map
      (fun p => p.servicio_prestador) = ["consulta_medicina_general"] ∧
    "consulta_medicina_general" ∉ servicios_prestadores_default := by decide

/-- C2 amended: for any raw input and configuration, the cleaner never
produces more rows than it was given, and every output row has non-zero
(and, by construction of the filter, non-null) coordinates and a service
id in the *image under the step-6.5 renaming table* of the configured
allow-list. -/
theorem clean_providers_data_spec (u : UnicodeModel) (df : List RawProvider)
    (servicios_prestadores prestadores_to_drop : List String) :
    (clean_providers_data u df servicios_prestadores prestadores_to_drop).length ≤
      df.length ∧
    ∀ p ∈ clean_providers_data u df servicios_prestadores prestadores_to_drop,
      p.lat ≠ 0 ∧ p.lng ≠ 0 ∧
      p.servicio_prestador ∈ servicios_prestadores.map renameService := by
  constructor
  · simp only [clean_providers_data, List.length_map]
    exact le_trans (List.length_filter_le _ _) (le_trans (List.length_filter_le _ _)
      (le_trans (List.length_filter_le _ _) (List.length_filter_le _ _)))
  · intro p hp
    simp only [clean_providers_data] at hp
    obtain ⟨r, hr, rfl⟩ := List.mem_map.mp hp
    have h6 := List.mem_filter.mp hr
    have h4 := List.mem_filter.mp h6.1
    have hco := h4.2
    have hsv := h6.2
    refine ⟨?_, ?_, ?_⟩
    · rcases hla : r.valor_latitud with _ | la <;>
        rcases hlo : r.valor_longitud with _ | lo <;>
        rw [hla, hlo] at hco <;> simp at hco
      simp [hla]
      exact hco.1
    · rcases hla : r.valor_latitud with _ | la <;>
        rcases hlo : r.valor_longitud with _ | lo <;>
        rw [hla, hlo] at hco <;> simp at hco
      simp [hlo]
      exact hco.2
    · rcases hsvv : rawServicio u r with _ | s <;> rw [hsvv] at hsv
      · simp at hsv
      · simp only [decide_eq_true_eq] at hsv
        simp only [hsvv, Option.getD_some]
        exact List.mem_map_of_mem renameService hsv

/-- Witness for C2's amended theorem at a concrete one-row table. -/
theorem clean_providers_data_spec_witness :
    (clean_providers_data asciiUnicodeModel
        [⟨some "IPS X", 1, some 1, some 2, .pstr "Urgencias medico general", "suc",
          "Antioquia", "Medellin", "dir", "hor", "t1", "t2"⟩]
        servicios_prestadores_default prestadores_to_drop_default).length ≤ 1 ∧
    ((⟨"IPS X", "suc", "Antioquia", "Medellin", "dir", 1, 2,
        "urgencias_medico_general", 1, "hor", "t1", "t2"⟩ : Provider).lat ≠ 0 ∧
     (⟨"IPS X", "suc", "Antioquia", "Medellin", "dir", 1, 2,
        "urgencias_medico_general", 1, "hor", "t1", "t2"⟩ : Provider).lng ≠ 0 ∧
     (⟨"IPS X", "suc", "Antioquia", "Medellin", "dir", 1, 2,
        "urgencias_medico_general", 1, "hor", "t1", "t2"⟩ : Provider).servicio_prestador ∈
       servicios_prestadores_default.map renameService) :=
  ⟨(clean_providers_data_spec asciiUnicodeModel
      [⟨some "IPS X", 1, some 1, some 2, .pstr "Urgencias medico general", "suc",
        "Antioquia", "Medellin", "dir", "hor", "t1", "t2"⟩]
      servicios_prestadores_default prestadores_to_drop_default).1,
   (clean_providers_data_spec asciiUnicodeModel
      [⟨some "IPS X", 1, some 1, some 2, .pstr "Urgencias medico general", "suc",
        "Antioquia", "Medellin", "dir", "hor", "t1", "t2"⟩]
      servicios_prestadores_default prestadores_to_drop_default).2
     ⟨"IPS X", "suc", "Antioquia", "Medellin", "dir", 1, 2,
        "urgencias_medico_general", 1, "hor", "t1", "t2"⟩ (by decide)⟩

/-- C5: with a user location, every returned provider is annotated with its
distance (the abstract `dist` stands for the source's `haversine` closure
with Earth radius 6371 km, external transcendental arithmetic) and no
returned provider exceeds `max_distance_km`, and the result is sorted
ascending by (distance, routing priority); without a user location the
result carries no distance and is sorted ascending by routing priority
alone. -/
theorem filter_providers_spec (u : UnicodeModel) (dist : ℚ → ℚ → ℚ → ℚ → ℚ)
    (servicios : List String) (departamento municipio : String)
    (prestadores_final : List Provider) (max_distance_km : ℚ) :
    (∀ loc : ℚ × ℚ,
      (∀ rp ∈ filter_providers_by_service_and_location u dist servicios departamento
          municipio prestadores_final (some loc) max_distance_km,
        rp.distancia_km = some (dist loc.1 loc.2 rp.provider.lat rp.provider.lng) ∧
        dist loc.1 loc.2 rp.provider.lat rp.provider.lng ≤ max_distance_km) ∧
      List.Sorted distPrioAsc (filter_providers_by_service_and_location u dist
        servicios departamento municipio prestadores_final (some loc)
        max_distance_km)) ∧
    ((∀ rp ∈ filter_providers_by_service_and_location u dist servicios departamento
        municipio prestadores_final none max_distance_km, rp.distancia_km = none) ∧
     List.Sorted prioAsc (filter_providers_by_service_and_location u dist servicios
       departamento municipio prestadores_final none max_distance_km)) := by
  constructor
  · intro loc
    simp only [filter_providers_by_service_and_location]
    split_ifs with hne
    · constructor
      · intro rp hrp
        have hrp2 : rp ∈ List.filter _ (List.map _ _) :=
          ((List.perm_insertionSort distPrioAsc _).mem_iff).mp hrp
        have hrp3 := List.mem_filter.mp hrp2
        obtain ⟨p, _, rfl⟩ := List.mem_map.mp hrp3.1
        refine ⟨rfl, ?_⟩
        have := hrp3.2
        simpa using this
      · exact List.sorted_insertionSort distPrioAsc _
    · constructor
      · intro rp hrp
        rw [not_ne_iff.mp hne] at hrp
        simp [List.insertionSort] at hrp
      · rw [not_ne_iff.mp hne]
        simp [List.insertionSort]
  · constructor
    · intro rp hrp
      simp only [filter_providers_by_service_and_location] at hrp
      have hrp2 : rp ∈ List.map _ _ :=
        ((List.perm_insertionSort prioAsc _).mem_iff).mp hrp
      obtain ⟨p, _, rfl⟩ := List.mem_map.mp hrp2
      rfl
    · simp only [filter_providers_by_service_and_location]
      exact List.sorted_insertionSort prioAsc _

/-- Witness for C5 at a one-provider table with a distance function that
returns the provider's latitude. -/
theorem filter_providers_spec_witness :
    ((⟨⟨"IPS", "suc", "Antioquia", "Medellin", "dir", 1, 2,
        "urgencias_medico_general", 1, "h", "t1", "t2"⟩, some 1⟩ :
        RankedProvider).distancia_km = some (1 : ℚ) ∧ (1 : ℚ) ≤ 50) ∧
    List.Sorted distPrioAsc (filter_providers_by_service_and_location
      asciiUnicodeModel (fun _ _ la _ => la) ["urgencias_medico_general"]
      "Antioquia" "Medellin"
      [⟨"IPS", "suc", "Antioquia", "Medellin", "dir", 1, 2,
        "urgencias_medico_general", 1, "h", "t1", "t2"⟩] (some (0, 0)) 50) :=
  ⟨((filter_providers_spec asciiUnicodeModel (fun _ _ la _ => la)
      ["urgencias_medico_general"] "Antioquia" "Medellin"
      [⟨"IPS", "suc", "Antioquia", "Medellin", "dir", 1, 2,
        "urgencias_medico_general", 1, "h", "t1", "t2"⟩] 50).1 (0, 0)).1
    ⟨⟨"IPS", "suc", "Antioquia", "Medellin", "dir", 1, 2,
      "urgencias_medico_general", 1, "h", "t1", "t2"⟩, some 1⟩ (by decide),
   ((filter_providers_spec asciiUnicodeModel (fun _ _ la _ => la)
      ["urgencias_medico_general"] "Antioquia" "Medellin"
      [⟨"IPS", "suc", "Antioquia", "Medellin", "dir", 1, 2,
        "urgencias_medico_general", 1, "h", "t1", "t2"⟩] 50).1 (0, 0)).2⟩

/-- C1, the code at the failing input: with duplicate candidates both
matcher strategies deduplicate the matched names but not the scores, so
the two returned lists have different lengths (shown on the fuzzy
strategy, whose scorer gives identical strings the full score 100, as
`token_sort_ratio` does; the semantic strategy shares the same dedup
code).  Query "a", candidates ["a", "a"], threshold 0.0, top_k 5. -/
theorem matcher_parallel_lists_bug :
    (fuzzy_match_services (fun q c => if q = c then 100 else 0)
        "a" ["a", "a"] 0 5).1.length = 1 ∧
    (fuzzy_match_services (fun q c => if q = c then 100 else 0)
        "a" ["a", "a"] 0 5).2.length = 2 := by
  constructor <;>
    norm_num [fuzzy_match_services, process_extract, List.insertionSort,
      List.orderedInsert, scoreDesc, dedupFirst, dedupByKey, dedupByKeyAux, zero_mul]

/-- C4 counterexample: with duplicate candidates the duplicates occupy
`top_k` slots before deduplication, so at threshold 0 the number of
matched candidates falls short of `min(top_k, #unique(candidates))`:
query "a", candidates ["a", "a", "b"], top_k 2 give one matched name,
not two. -/
theorem matcher_topk_dedup_counterexample :
    (fuzzy_match_services (fun q c => if q = c then 100 else 0)
        "a" ["a", "a", "b"] 0 2).1.length = 1 ∧
    min 2 (dedupFirst ["a", "a", "b"]).length = 2 := by
  constructor
  · norm_num [fuzzy_match_services, process_extract, List.insertionSort,
      List.orderedInsert, scoreDesc, dedupFirst, dedupByKey, dedupByKeyAux, zero_mul]
  · decide

/-- C4 amended: assuming the score functions take values in [0,1]
(semantic cosine, the spec's "naturally in [0,1]" clamp assumption) resp.
[0,100] (fuzzy ratio), and the candidates are pairwise distinct: with
threshold 0.0 both strategies return min(top_k, #candidates) matched
names; with threshold 1.01 both return an empty match list; and for every
threshold the returned scores are monotonically non-increasing. -/
theorem matcher_threshold_spec (sim scorer : String → String → ℚ) (q : String)
    (cands : List String) (k : ℕ)
    (hsim : ∀ x y, 0 ≤ sim x y ∧ sim x y ≤ 1)
    (hsc : ∀ x y, 0 ≤ scorer x y ∧ scorer x y ≤ 100)
    (hnd : cands.Nodup) :
    (semantic_match_services sim q cands 0 k).1.length = min k cands.length ∧
    (fuzzy_match_services scorer q cands 0 k).1.length = min k cands.length ∧
    (semantic_match_services sim q cands (101/100) k).1 = [] ∧
    (fuzzy_match_services scorer q cands (101/100) k).1 = [] ∧
    ∀ th : ℚ, List.Sorted (fun a b : ℚ => b ≤ a)
        (semantic_match_services sim q cands th k).2 ∧
      List.Sorted (fun a b : ℚ => b ≤ a) (fuzzy_match_services scorer q cands th k).2 := by
  refine ⟨?_, ?_, ?_, ?_, ?_⟩
  · simp only [semantic_match_services]
    set pairs := cands.map (fun s =>
      (s, sim (normalize_text_for_embedding q) (normalize_text_for_embedding s)))
      with hpairs
    have h0 : pairs.map Prod.fst = cands := by
      rw [hpairs, List.map_map]
      exact List.map_id' cands
    have hfil : pairs.filter (fun p => decide ((0 : ℚ) ≤ p.2)) = pairs := by
      apply List.filter_eq_self.mpr
      intro a ha
      rw [hpairs] at ha
      obtain ⟨s, _, rfl⟩ := List.mem_map.mp ha
      simpa using (hsim _ _).1
    rw [hfil]
    have h1 : ((List.insertionSort scoreDesc pairs).map Prod.fst).Nodup := by
      refine (((List.perm_insertionSort scoreDesc pairs).map Prod.fst).symm).nodup ?_
      rw [h0]
      exact hnd
    have hnodup : (((List.insertionSort scoreDesc pairs).take k).map Prod.fst).Nodup :=
      ((List.take_sublist _ _).map Prod.fst).nodup h1
    rw [dedupFirst_of_nodup _ hnodup, List.length_map, List.length_take,
      List.length_insertionSort, hpairs, List.length_map]
  · simp only [fuzzy_match_services, process_extract]
    set pairs := cands.map (fun c => (c, scorer q c)) with hpairs
    have h0 : pairs.map Prod.fst = cands := by
      rw [hpairs, List.map_map]
      exact List.map_id' cands
    have h1 : ((List.insertionSort scoreDesc pairs).map Prod.fst).Nodup := by
      refine (((List.perm_insertionSort scoreDesc pairs).map Prod.fst).symm).nodup ?_
      rw [h0]
      exact hnd
    have hfil : ((List.insertionSort scoreDesc pairs).take (k * 2)).filter
        (fun m => decide ((0 : ℚ) * 100 ≤ m.2)) =
        (List.insertionSort scoreDesc pairs).take (k * 2) := by
      apply List.filter_eq_self.mpr
      intro m hm
      have hm2 : m ∈ pairs := (List.perm_insertionSort scoreDesc pairs).subset
        ((List.take_sublist _ _).subset hm)
      rw [hpairs] at hm2
      obtain ⟨c, _, rfl⟩ := List.mem_map.mp hm2
      simp only [decide_eq_true_eq, zero_mul]
      exact (hsc _ _).1
    rw [hfil]
    have h2 : (((List.insertionSort scoreDesc pairs).take (k * 2)).map Prod.fst).Nodup :=
      ((List.take_sublist _ _).map Prod.fst).nodup h1
    have h3 : ((List.insertionSort scoreDesc
        ((List.insertionSort scoreDesc pairs).take (k * 2))).map Prod.fst).Nodup :=
      (((List.perm_insertionSort scoreDesc _).map Prod.fst).symm).nodup h2
    have hnodup : (((List.insertionSort scoreDesc
        ((List.insertionSort scoreDesc pairs).take (k * 2))).take k).map Prod.fst).Nodup :=
      ((List.take_sublist _ _).map Prod.fst).nodup h3
    rw [dedupFirst_of_nodup _ hnodup, List.length_map, List.length_take,
      List.length_insertionSort, List.length_take, List.length_insertionSort,
      hpairs, List.length_map]
    omega
  · simp only [semantic_match_services]
    have hfil : (cands.map (fun s =>
        (s, sim (normalize_text_for_embedding q) (normalize_text_for_embedding s)))).filter
        (fun p => decide ((101 : ℚ)/100 ≤ p.2)) = [] := by
      apply List.filter_eq_nil_iff.mpr
      intro a ha
      obtain ⟨s, _, rfl⟩ := List.mem_map.mp ha
      simp only [decide_eq_true_eq]
      intro hge
      have hb := (hsim (normalize_text_for_embedding q) (normalize_text_for_embedding s)).2
      have hlt : (1 : ℚ) < 101/100 := by norm_num
      linarith
    rw [hfil]
    simp [List.insertionSort, dedupFirst, dedupByKey, dedupByKeyAux]
  · simp only [fuzzy_match_services, process_extract]
    have hfil : ((List.insertionSort scoreDesc (cands.map (fun c => (c, scorer q c)))).take
        (k * 2)).filter (fun m => decide ((101 : ℚ)/100 * 100 ≤ m.2)) = [] := by
      apply List.filter_eq_nil_iff.mpr
      intro m hm
      have hm2 : m ∈ cands.map (fun c => (c, scorer q c)) :=
        (List.perm_insertionSort scoreDesc _).subset ((List.take_sublist _ _).subset hm)
      obtain ⟨c, _, rfl⟩ := List.mem_map.mp hm2
      simp only [decide_eq_true_eq]
      intro hge
      have hb := (hsc q c).2
      have h100 : (101 : ℚ)/100 * 100 = 101 := by norm_num
      rw [h100] at hge
      linarith
    rw [hfil]
    simp [List.insertionSort, dedupFirst, dedupByKey, dedupByKeyAux]
  · intro th
    constructor
    · simp only [semantic_match_services]
      refine List.Pairwise.map _ (fun a b hab => pyRound3_mono hab) ?_
      exact List.Pairwise.sublist (List.take_sublist _ _)
        (List.sorted_insertionSort scoreDesc _)
    · simp only [fuzzy_match_services, process_extract]
      refine List.Pairwise.map _ (fun (a b : String × ℚ) (hab : scoreDesc a b) =>
        pyRound3_mono (by
          have h2 : b.2 ≤ a.2 := hab
          linarith)) ?_
      exact List.Pairwise.sublist (List.take_sublist _ _)
        (List.sorted_insertionSort scoreDesc _)

/-- Witness for C4's amended theorem at constant score functions and two
distinct candidates. -/
theorem matcher_threshold_spec_witness :
    (semantic_match_services (fun _ _ => 1) "a" ["x", "y"] 0 1).1.length = min 1 2 ∧
    (fuzzy_match_services (fun _ _ => 100) "a" ["x", "y"] 0 1).1.length = min 1 2 :=
  have h := matcher_threshold_spec (fun _ _ => 1) (fun _ _ => 100) "a" ["x", "y"] 1
    (fun _ _ => ⟨zero_le_one, le_refl 1⟩) (fun _ _ => ⟨(by decide : (0 : ℚ) ≤ 100), le_refl 100⟩)
    (by decide)
  ⟨h.1, h.2.1⟩
